import Mathlib

/-!
Verification of the message relay pipeline of a DingTalk / OpenCode MCP
relay server (src/index.mjs), shallowly embedded in Lean 4: the LRU/TTL
caches backing the registries, the session-webhook registry, the outbound
message dispatcher (rate limiting and chunking), the inbound message
orchestration and the read-only control-surface operations.
-/

namespace Relay

/-- Shallow embedding of the lru-cache instances the server constructs
(`new LRUCache({max, ttl, updateAgeOnGet, ...})`).  `entries` is kept in
most-recently-used-first order; each entry carries the TTL start time of
that entry.  An entry is stale once `now - start > ttl` (lru-cache treats
a remaining TTL of zero as still valid). -/
structure LRUCache (K V : Type) where
  max : Nat
  ttl : Option Nat
  updateAgeOnGet : Bool
  entries : List (K × V × Nat)

/-- Freshness of a cache entry whose TTL clock started at `start`. -/
def entryFresh (ttl : Option Nat) (start now : Nat) : Bool :=
  match ttl with
  | none => true
  | some d => decide (now ≤ start + d)

variable {K V : Type} [DecidableEq K]

/-- `cache.has(key)`: true when the key is present and not stale; does not
mutate the cache (`updateAgeOnHas` is left at its default `false`). -/
def LRUCache.has (c : LRUCache K V) (k : K) (now : Nat) : Bool :=
  match c.entries.find? (fun e => decide (e.1 = k)) with
  | none => false
  | some e => entryFresh c.ttl e.2.2 now

/-- `cache.delete(key)`. -/
def LRUCache.delete (c : LRUCache K V) (k : K) : LRUCache K V :=
  { c with entries := c.entries.filter (fun e => !decide (e.1 = k)) }

/-- `cache.set(key, value)`: replaces any entry for the key, evicts the
least-recently-used entries when at capacity, and inserts the new entry as
most recently used with a fresh TTL start time. -/
def LRUCache.set (c : LRUCache K V) (k : K) (v : V) (now : Nat) : LRUCache K V :=
  { c with entries := (k, v, now) :: ((c.delete k).entries.take (c.max - 1)) }

/-- `cache.get(key)`: absent keys leave the cache untouched; a stale entry
is purged and reported absent; a fresh entry is returned, moved to the
most-recently-used position, and (when `updateAgeOnGet`) its TTL clock is
restarted. -/
def LRUCache.get (c : LRUCache K V) (k : K) (now : Nat) :
    Option V × LRUCache K V :=
  match c.entries.find? (fun e => decide (e.1 = k)) with
  | none => (none, c)
  | some e =>
    if entryFresh c.ttl e.2.2 now then
      let start := if c.updateAgeOnGet then now else e.2.2
      (some e.2.1, { c with entries := (k, e.2.1, start) :: (c.delete k).entries })
    else
      (none, c.delete k)

/-- No entry for the deleted key survives `delete`. -/
lemma LRUCache.not_mem_delete (c : LRUCache K V) (k : K) :
    ∀ e ∈ (c.delete k).entries, e.1 ≠ k := by
  intro e he
  simp only [LRUCache.delete, List.mem_filter, Bool.not_eq_eq_eq_not,
    Bool.not_true, decide_eq_false_iff_not] at he
  exact he.2

/-- After `set`, a lookup of the written key sees exactly the freshness of
the newly written entry. -/
lemma LRUCache.has_set_self (c : LRUCache K V) (k : K) (v : V) (t0 t : Nat) :
    (c.set k v t0).has k t = entryFresh c.ttl t0 t := by
  simp only [LRUCache.set, LRUCache.has]
  rw [List.find?_cons_of_pos]
  simp

/-- Dedup check: `processedMessages.has(msgId)` (src/index.mjs:296). -/
def isMessageProcessed (pm : LRUCache K Nat) (msgId : K) (now : Nat) : Bool :=
  pm.has msgId now

/-- Dedup mark: `processedMessages.set(msgId, Date.now())` (src/index.mjs:300). -/
def markMessageProcessed (pm : LRUCache K Nat) (msgId : K) (now : Nat) :
    LRUCache K Nat :=
  pm.set msgId now now

/-- TTL of the `processedMessages` cache (5 minutes, src/index.mjs:28). -/
def PROCESSED_MESSAGES_TTL : Nat := 1000 * 60 * 5

/-- C1: marking a message id and then checking it within the dedup TTL
(5 minutes), with no intervening operation on the dedup registry, reports
it as processed; once the TTL has elapsed since the mark, the check
reports it as unprocessed. -/
theorem dedup_mark_then_check (c : LRUCache K Nat) (k : K) (t0 t : Nat)
    (httl : c.ttl = some PROCESSED_MESSAGES_TTL) (hord : t0 ≤ t) :
    (t ≤ t0 + PROCESSED_MESSAGES_TTL →
      isMessageProcessed (markMessageProcessed c k t0) k t = true) ∧
    (t0 + PROCESSED_MESSAGES_TTL < t →
      isMessageProcessed (markMessageProcessed c k t0) k t = false) := by
  constructor
  · intro h
    simp [isMessageProcessed, markMessageProcessed, LRUCache.has_set_self,
      entryFresh, httl, h]
  · intro h
    simp [isMessageProcessed, markMessageProcessed, LRUCache.has_set_self,
      entryFresh, httl]
    omega

/-- Concrete instance of C1 at an explicit cache state and times. -/
theorem dedup_mark_then_check_witness :
    let c : LRUCache (Option String) Nat :=
      ⟨1000, some PROCESSED_MESSAGES_TTL, true, []⟩
    (7 ≤ 3 + PROCESSED_MESSAGES_TTL →
      isMessageProcessed (markMessageProcessed c (some ("m1")) 3) (some ("m1")) 7 = true) ∧
    (3 + PROCESSED_MESSAGES_TTL < 7 →
      isMessageProcessed (markMessageProcessed c (some ("m1")) 3) (some ("m1")) 7 = false) :=
  dedup_mark_then_check _ _ 3 7 rfl (by decide)

/-- Value stored by the webhook registry: `{url, expiredTime}`
(src/index.mjs:205). -/
structure WebhookEntry where
  url : String
  expiredTime : Nat
deriving DecidableEq

/-- TTL of the webhook cache (2 hours, src/index.mjs:186). -/
def WEBHOOKS_TTL : Nat := 1000 * 60 * 60 * 2

/-- `SessionWebhookManager.getWebhook` (src/index.mjs:193-202): look the
conversation up in the cache; absent gives null; a hit whose semantic
`expiredTime` has passed is deleted and gives null; otherwise the stored
url is returned. -/
def getWebhook (whs : LRUCache K WebhookEntry) (cid : K) (now : Nat) :
    Option String × LRUCache K WebhookEntry :=
  match whs.get cid now with
  | (none, m1) => (none, m1)
  | (some w, m1) =>
    if w.expiredTime < now then (none, m1.delete cid)
    else (some w.url, m1)

/-- `SessionWebhookManager.setWebhook` (src/index.mjs:204-207). -/
def setWebhook (whs : LRUCache K WebhookEntry) (cid : K) (url : String)
    (expiredTime : Nat) (now : Nat) : LRUCache K WebhookEntry :=
  whs.set cid ⟨url, expiredTime⟩ now

/-- C2: `getWebhook` enforces the semantic expiry independently of the
cache TTL: with no entry for the conversation it returns absent; on a
cache-fresh entry whose `expiredTime` lies strictly in the past it deletes
the binding and returns absent; on a cache-fresh entry still within its
`expiredTime` it returns the stored url. -/
theorem getWebhook_semantic_expiry (whs : LRUCache K WebhookEntry) (cid : K)
    (now : Nat) :
    ((whs.entries.find? (fun e => decide (e.1 = cid)) = none) →
      getWebhook whs cid now = (none, whs)) ∧
    (∀ w start, whs.entries.find? (fun e => decide (e.1 = cid)) = some (cid, w, start) →
      entryFresh whs.ttl start now = true →
      w.expiredTime < now →
      (getWebhook whs cid now).1 = none ∧
      ∀ e ∈ (getWebhook whs cid now).2.entries, e.1 ≠ cid) ∧
    (∀ w start, whs.entries.find? (fun e => decide (e.1 = cid)) = some (cid, w, start) →
      entryFresh whs.ttl start now = true →
      now ≤ w.expiredTime →
      (getWebhook whs cid now).1 = some w.url) := by
  refine ⟨?_, ?_, ?_⟩
  · intro h
    simp [getWebhook, LRUCache.get, h]
  · intro w start hfind hfresh hexp
    constructor
    · simp [getWebhook, LRUCache.get, hfind, hfresh, hexp]
    · intro e he
      have h2 : (getWebhook whs cid now).2 =
          ({ whs with entries :=
              (cid, w, if whs.updateAgeOnGet then now else start) ::
                (whs.delete cid).entries } : LRUCache K WebhookEntry).delete cid := by
        simp [getWebhook, LRUCache.get, hfind, hfresh, hexp]
      rw [h2] at he
      exact LRUCache.not_mem_delete _ _ e he
  · intro w start hfind hfresh hexp
    have h : ¬ w.expiredTime < now := by omega
    simp [getWebhook, LRUCache.get, hfind, hfresh, h]

/-- Concrete instance of C2: registry holding one cache-fresh binding whose
semantic expiry has passed. -/
theorem getWebhook_semantic_expiry_witness :
    let whs : LRUCache (Option String) WebhookEntry :=
      ⟨100, some WEBHOOKS_TTL, false, [(some ("c1"), ⟨"https://cb/x", 10⟩, 0)]⟩
    (getWebhook whs (some ("c1")) 11).1 = none ∧
    ∀ e ∈ (getWebhook whs (some ("c1")) 11).2.entries, e.1 ≠ some ("c1") :=
  (getWebhook_semantic_expiry _ _ 11).2.1 ⟨"https://cb/x", 10⟩ 0
    (by decide) (by decide) (by decide)

/-- `MAX_MESSAGE_SIZE` of the dispatcher (20 KiB, src/index.mjs:222). -/
def MAX_MESSAGE_SIZE : Nat := 20 * 1024

/-- `MAX_MESSAGES_PER_MINUTE` of the dispatcher (src/index.mjs:221). -/
def MAX_MESSAGES_PER_MINUTE : Nat := 20

/-- The mutable fields of `MessageQueueManager` (src/index.mjs:218-220). -/
structure MQState where
  lastSendTime : Nat
  sendCount : Nat
deriving DecidableEq

/-- Observable events of one dispatcher call: a blocking rate-limit wait,
a delivery call (`httpClient.post`) together with its outcome, and the
inter-chunk `sleep`. -/
inductive SendEv where
  | rateWait (ms : Nat)
  | post (chunk : List Char) (ok : Bool)
  | sleep (ms : Nat)
deriving DecidableEq

/-- `waitForRateLimit` (src/index.mjs:267-276): when the send counter has
reached the cap and less than 60 s passed since the last send, sleep out
the remainder of the window and reset the counter; otherwise do nothing.
Returns the emitted events, the new state and the clock after the call. -/
def waitForRateLimit (st : MQState) (now : Nat) : List SendEv × MQState × Nat :=
  let timeSinceLastSend := now - st.lastSendTime
  if MAX_MESSAGES_PER_MINUTE ≤ st.sendCount ∧ timeSinceLastSend < 60000 then
    let waitTime := 60000 - timeSinceLastSend
    ([SendEv.rateWait waitTime], { st with sendCount := 0 }, now + waitTime)
  else
    ([], st, now)

/-- The chunk split of `sendLongMessage` (src/index.mjs:255-258):
`for (let i = 0; i < message.length; i += MAX_MESSAGE_SIZE)
   chunks.push(message.slice(i, i + MAX_MESSAGE_SIZE))`. -/
def chunkify : List Char → List (List Char)
  | [] => []
  | c :: cs =>
    ((c :: cs).take MAX_MESSAGE_SIZE) :: chunkify ((c :: cs).drop MAX_MESSAGE_SIZE)
termination_by s => s.length
decreasing_by
  simp only [List.length_drop, List.length_cons, MAX_MESSAGE_SIZE]
  omega

/-- `sendMessage` (src/index.mjs:237-252): one raw delivery call; rethrows
on failure.  The outcome of the call is supplied by the `ok` oracle. -/
def sendMessage (ok : Bool) (chunk : List Char) : List SendEv × Bool :=
  ([SendEv.post chunk ok], ok)

/-- The loop of `sendLongMessage` (src/index.mjs:260-264): deliver each
chunk via `sendMessage`, sleeping 1000 ms after every chunk but the last;
a failing delivery aborts the loop and propagates.  `oracle i` is the
outcome of the delivery call for chunk `i`. -/
def sendChunksLoop (oracle : Nat → Bool) : Nat → List (List Char) → List SendEv × Bool
  | _, [] => ([], true)
  | i, [c] =>
    if oracle i then ([SendEv.post c true], true)
    else ([SendEv.post c false], false)
  | i, c :: c2 :: rest2 =>
    if oracle i then
      let r := sendChunksLoop oracle (i + 1) (c2 :: rest2)
      (SendEv.post c true :: SendEv.sleep 1000 :: r.1, r.2)
    else
      ([SendEv.post c false], false)

/-- `sendLongMessage` (src/index.mjs:254-265). -/
def sendLongMessage (oracle : Nat → Bool) (message : List Char) :
    List SendEv × Bool :=
  sendChunksLoop oracle 0 (chunkify message)

/-- `MessageQueueManager.send` (src/index.mjs:225-235): oversized payloads
go to `sendLongMessage` and return; otherwise wait for the rate limit,
deliver, and only after a successful delivery bump `sendCount` and
`lastSendTime`.  Returns the events, the final state and whether the call
completed without throwing. -/
def send (oracle : Nat → Bool) (st : MQState) (now : Nat)
    (message : List Char) : List SendEv × MQState × Bool :=
  if MAX_MESSAGE_SIZE < message.length then
    let r := sendLongMessage oracle message
    (r.1, st, r.2)
  else
    match waitForRateLimit st now with
    | (wEvs, st1, now1) =>
      let m := sendMessage (oracle 0) message
      if oracle 0 then
        (wEvs ++ m.1, ⟨now1, st1.sendCount + 1⟩, true)
      else
        (wEvs ++ m.1, st1, false)

/-- `chunkify` of a nonempty payload is nonempty. -/
lemma chunkify_ne_nil (s : List Char) (h : s ≠ []) : chunkify s ≠ [] := by
  cases s with
  | nil => exact absurd rfl h
  | cons c cs => rw [chunkify]; simp

/-- The in-order concatenation of the chunks is the original payload. -/
lemma chunkify_flatten (s : List Char) : (chunkify s).flatten = s := by
  induction s using chunkify.induct with
  | case1 => simp [chunkify]
  | case2 c cs ih =>
    rw [chunkify]
    simp [ih]

/-- The number of chunks is the ceiling of length over `MAX_MESSAGE_SIZE`. -/
lemma chunkify_length (s : List Char) :
    (chunkify s).length = (s.length + MAX_MESSAGE_SIZE - 1) / MAX_MESSAGE_SIZE := by
  induction s using chunkify.induct with
  | case1 =>
    rw [chunkify]
    simp [MAX_MESSAGE_SIZE]
  | case2 c cs ih =>
    rw [chunkify]
    simp only [List.length_cons, List.length_drop] at ih ⊢
    simp only [MAX_MESSAGE_SIZE] at ih ⊢
    omega

/-- Every chunk is nonempty and no chunk exceeds `MAX_MESSAGE_SIZE`. -/
lemma chunkify_mem_bounds (s : List Char) :
    ∀ l ∈ chunkify s, 0 < l.length ∧ l.length ≤ MAX_MESSAGE_SIZE := by
  induction s using chunkify.induct with
  | case1 =>
    rw [chunkify]
    simp
  | case2 c cs ih =>
    rw [chunkify]
    intro l hl
    rcases List.mem_cons.1 hl with h | h
    · subst h
      simp only [List.length_take, List.length_cons]
      constructor
      · simp [MAX_MESSAGE_SIZE]
      · omega
    · exact ih l h

/-- Every chunk except possibly the last has length exactly
`MAX_MESSAGE_SIZE`. -/
lemma chunkify_dropLast (s : List Char) :
    ∀ l ∈ (chunkify s).dropLast, l.length = MAX_MESSAGE_SIZE := by
  induction s using chunkify.induct with
  | case1 =>
    rw [chunkify]
    simp
  | case2 c cs ih =>
    rw [chunkify]
    rcases Nat.lt_or_ge MAX_MESSAGE_SIZE (c :: cs).length with hlen | hlen
    · have hd : (c :: cs).drop MAX_MESSAGE_SIZE ≠ [] := by
        simp only [ne_eq, List.drop_eq_nil_iff]
        omega
      have hc := chunkify_ne_nil _ hd
      rw [List.dropLast_cons_of_ne_nil hc]
      intro l hl
      rcases List.mem_cons.1 hl with h | h
      · subst h
        simp only [List.length_take]
        omega
      · exact ih l h
    · have hd : (c :: cs).drop MAX_MESSAGE_SIZE = [] := by
        simp only [List.drop_eq_nil_iff]
        omega
      rw [hd, chunkify]
      simp

/-- Modelled from the spec: the delivery trace the specification describes
for a chunk list — each chunk delivered in order, a 1 s delay between
consecutive chunks and none after the last. -/
def specChunkDelivery : List (List Char) → List SendEv
  | [] => []
  | [c] => [SendEv.post c true]
  | c :: c2 :: rest =>
    SendEv.post c true :: SendEv.sleep 1000 :: specChunkDelivery (c2 :: rest)

/-- When every delivery succeeds, the chunk loop emits exactly the
spec-described trace. -/
lemma sendChunksLoop_all_ok (cks : List (List Char)) :
    ∀ i, sendChunksLoop (fun _ => true) i cks = (specChunkDelivery cks, true) := by
  induction cks using specChunkDelivery.induct with
  | case1 => intro i; rfl
  | case2 c => intro i; simp [sendChunksLoop, specChunkDelivery]
  | case3 c c2 rest ih =>
    intro i
    simp [sendChunksLoop, specChunkDelivery, ih (i + 1)]

/-- C3: an over-long payload is split into exactly
`ceil(len / MAX_MESSAGE_SIZE)` ordered chunks, all of size
`MAX_MESSAGE_SIZE` except possibly a shorter final one, whose in-order
concatenation is the original payload; with all deliveries succeeding,
`sendLongMessage` posts the chunks in order with a 1000 ms sleep between
consecutive chunks and none after the last; a payload of
`2.5 * MAX_MESSAGE_SIZE` gives exactly 3 chunks. -/
theorem sendLongMessage_chunking_roundtrip (message : List Char)
    (h : MAX_MESSAGE_SIZE < message.length) :
    (chunkify message).length =
      (message.length + MAX_MESSAGE_SIZE - 1) / MAX_MESSAGE_SIZE ∧
    (∀ l ∈ (chunkify message).dropLast, l.length = MAX_MESSAGE_SIZE) ∧
    (∀ l ∈ chunkify message, 0 < l.length ∧ l.length ≤ MAX_MESSAGE_SIZE) ∧
    (chunkify message).flatten = message ∧
    sendLongMessage (fun _ => true) message =
      (specChunkDelivery (chunkify message), true) ∧
    (message.length = 51200 → (chunkify message).length = 3) := by
  refine ⟨chunkify_length message, chunkify_dropLast message,
    chunkify_mem_bounds message, chunkify_flatten message,
    sendChunksLoop_all_ok (chunkify message) 0, ?_⟩
  intro h51
  rw [chunkify_length, h51]
  simp [MAX_MESSAGE_SIZE]

/-- Concrete instance of C3 at a payload of size `2.5 * MAX_MESSAGE_SIZE`. -/
theorem sendLongMessage_chunking_roundtrip_witness :
    MAX_MESSAGE_SIZE < (List.replicate 51200 'a').length ∧
    (chunkify (List.replicate 51200 'a')).length = 3 :=
  have hlen : MAX_MESSAGE_SIZE < (List.replicate 51200 'a').length := by
    rw [List.length_replicate]
    norm_num [MAX_MESSAGE_SIZE]
  ⟨hlen, (sendLongMessage_chunking_roundtrip (List.replicate 51200 'a')
      hlen).2.2.2.2.2 (List.length_replicate ..)⟩

/-- Whether a trace contains a rate-limit wait. -/
def hasRateWait (evs : List SendEv) : Bool :=
  evs.any (fun e => match e with | SendEv.rateWait _ => true | _ => false)

/-- Whether a trace contains a delivery call. -/
def hasPost (evs : List SendEv) : Bool :=
  evs.any (fun e => match e with | SendEv.post _ _ => true | _ => false)

/-- The chunk loop never consults the rate window. -/
lemma sendChunksLoop_no_rateWait (oracle : Nat → Bool) (cks : List (List Char)) :
    ∀ i, hasRateWait (sendChunksLoop oracle i cks).1 = false := by
  induction cks using specChunkDelivery.induct with
  | case1 => intro i; rfl
  | case2 c =>
    intro i
    cases h : oracle i <;> simp [sendChunksLoop, h, hasRateWait]
  | case3 c c2 rest ih =>
    intro i
    cases h : oracle i with
    | false => simp [sendChunksLoop, h, hasRateWait]
    | true =>
      have ht := ih (i + 1)
      simp only [hasRateWait] at ht
      simp [sendChunksLoop, h, hasRateWait, ht]

/-- The chunk loop on a nonempty chunk list issues a delivery call. -/
lemma sendChunksLoop_hasPost (oracle : Nat → Bool) (c : List Char)
    (cks : List (List Char)) (i : Nat) :
    hasPost (sendChunksLoop oracle i (c :: cks)).1 = true := by
  cases cks with
  | nil => cases h : oracle i <;> simp [sendChunksLoop, h, hasPost]
  | cons c2 r2 => cases h : oracle i <;> simp [sendChunksLoop, h, hasPost]

/-- An oversized payload takes the `sendLongMessage` branch of `send`. -/
lemma send_long_eq (oracle : Nat → Bool) (st : MQState) (now : Nat)
    (message : List Char) (h : MAX_MESSAGE_SIZE < message.length) :
    send oracle st now message =
      ((sendLongMessage oracle message).1, st, (sendLongMessage oracle message).2) := by
  simp only [send, if_pos h]

/-- An oversized payload still produces at least one delivery call. -/
lemma send_long_hasPost (oracle : Nat → Bool) (st : MQState) (now : Nat)
    (message : List Char) (h : MAX_MESSAGE_SIZE < message.length) :
    hasPost (send oracle st now message).1 = true := by
  rw [send_long_eq oracle st now message h]
  have hne : message ≠ [] := by
    intro hc
    rw [hc] at h
    simp at h
  have hck := chunkify_ne_nil message hne
  rcases hc : chunkify message with _ | ⟨c, cks⟩
  · exact absurd hc hck
  · simp only [sendLongMessage, hc]
    exact sendChunksLoop_hasPost oracle c cks 0

/-- An oversized payload never consults the rate window. -/
lemma send_long_no_rateWait (oracle : Nat → Bool) (st : MQState) (now : Nat)
    (message : List Char) (h : MAX_MESSAGE_SIZE < message.length) :
    hasRateWait (send oracle st now message).1 = false := by
  rw [send_long_eq oracle st now message h]
  exact sendChunksLoop_no_rateWait oracle (chunkify message) 0

/-- C4 fails on the code: an oversized payload sent while the rate window
is saturated (`sendCount = 20`, last send just now) is delivered — a
`post` event occurs — yet the rate window is never consulted: no
`rateWait` event appears in the trace. -/
theorem chunked_send_bypasses_rate_limit_cex :
    hasPost (send (fun _ => true) ⟨0, MAX_MESSAGES_PER_MINUTE⟩ 0
      (List.replicate (MAX_MESSAGE_SIZE + 1) 'a')).1 = true ∧
    hasRateWait (send (fun _ => true) ⟨0, MAX_MESSAGES_PER_MINUTE⟩ 0
      (List.replicate (MAX_MESSAGE_SIZE + 1) 'a')).1 = false := by
  have hlen : MAX_MESSAGE_SIZE <
      (List.replicate (MAX_MESSAGE_SIZE + 1) 'a').length := by
    rw [List.length_replicate]
    omega
  exact ⟨send_long_hasPost _ _ _ _ hlen, send_long_no_rateWait _ _ _ _ hlen⟩

/-- C4 corrected: for every oversized payload, `send` hands the whole
payload to `sendLongMessage`, whose chunk deliveries go through the raw
`sendMessage` call only — the rate window is never consulted (no
`rateWait` event) and the dispatcher state is left untouched. -/
theorem chunked_send_skips_rate_window (oracle : Nat → Bool) (st : MQState)
    (now : Nat) (message : List Char)
    (h : MAX_MESSAGE_SIZE < message.length) :
    hasRateWait (send oracle st now message).1 = false ∧
    (send oracle st now message).2.1 = st := by
  refine ⟨send_long_no_rateWait oracle st now message h, ?_⟩
  rw [send_long_eq oracle st now message h]

/-- Concrete instance of the corrected C4. -/
theorem chunked_send_skips_rate_window_witness :
    hasRateWait (send (fun _ => false) ⟨0, 20⟩ 0
      (List.replicate (MAX_MESSAGE_SIZE + 1) 'a')).1 = false ∧
    (send (fun _ => false) ⟨0, 20⟩ 0
      (List.replicate (MAX_MESSAGE_SIZE + 1) 'a')).2.1 = ⟨0, 20⟩ :=
  chunked_send_skips_rate_window (fun _ => false) ⟨0, 20⟩ 0 _ (by
    rw [List.length_replicate]
    omega)

/-- C5 fails on the code: a delivery attempt that throws (`hasPost` shows
the attempt was issued) leaves `sendCount` at its prior value — the
increment sits after the `await` and is skipped on failure. -/
theorem failed_send_not_counted_cex :
    hasPost (send (fun _ => false) ⟨0, 0⟩ 5 ['a']).1 = true ∧
    (send (fun _ => false) ⟨0, 0⟩ 5 ['a']).2.1.sendCount = 0 := by
  decide

/-- C5 corrected: on the unchunked path, `sendCount` is incremented and
`lastSendTime` set to the post-wait clock exactly when the delivery call
succeeds; when it throws, the state is left as `waitForRateLimit` left it
and the failure propagates. -/
theorem send_count_updated_only_on_success (oracle : Nat → Bool)
    (st : MQState) (now : Nat) (message : List Char)
    (h : message.length ≤ MAX_MESSAGE_SIZE) :
    (oracle 0 = true →
      (send oracle st now message).2.1 =
        ⟨(waitForRateLimit st now).2.2,
         (waitForRateLimit st now).2.1.sendCount + 1⟩ ∧
      (send oracle st now message).2.2 = true) ∧
    (oracle 0 = false →
      (send oracle st now message).2.1 = (waitForRateLimit st now).2.1 ∧
      (send oracle st now message).2.2 = false) := by
  have h2 : ¬ MAX_MESSAGE_SIZE < message.length := by omega
  rcases hw : waitForRateLimit st now with ⟨wEvs, st1, now1⟩
  constructor <;> intro h0 <;> simp [send, if_neg h2, hw, h0]

/-- Concrete instance of the corrected C5. -/
theorem send_count_updated_only_on_success_witness :
    (send (fun _ => true) ⟨0, 0⟩ 5 ['a']).2.1 =
      ⟨(waitForRateLimit ⟨0, 0⟩ 5).2.2,
       (waitForRateLimit ⟨0, 0⟩ 5).2.1.sendCount + 1⟩ ∧
    (send (fun _ => true) ⟨0, 0⟩ 5 ['a']).2.2 = true :=
  (send_count_updated_only_on_success (fun _ => true) ⟨0, 0⟩ 5 ['a']
    (by decide)).1 rfl

/-- C6: when the counter has reached `MAX_MESSAGES_PER_MINUTE` and less
than 60000 ms have passed since the last send, `waitForRateLimit` blocks
until exactly `lastSendTime + 60000` and resets the counter to 0; in every
other case it neither waits nor resets; on the unchunked path the wait
happens before the delivery call. -/
theorem waitForRateLimit_window (st : MQState) (now : Nat)
    (hord : st.lastSendTime ≤ now) :
    ((MAX_MESSAGES_PER_MINUTE ≤ st.sendCount ∧ now - st.lastSendTime < 60000) →
      waitForRateLimit st now =
        ([SendEv.rateWait (60000 - (now - st.lastSendTime))],
         ⟨st.lastSendTime, 0⟩, st.lastSendTime + 60000)) ∧
    (¬ (MAX_MESSAGES_PER_MINUTE ≤ st.sendCount ∧ now - st.lastSendTime < 60000) →
      waitForRateLimit st now = ([], st, now)) ∧
    (∀ (oracle : Nat → Bool) (message : List Char),
      message.length ≤ MAX_MESSAGE_SIZE →
      (send oracle st now message).1 =
        (waitForRateLimit st now).1 ++ [SendEv.post message (oracle 0)]) := by
  refine ⟨?_, ?_, ?_⟩
  · intro h
    have hclk : now + (60000 - (now - st.lastSendTime)) =
        st.lastSendTime + 60000 := by omega
    simp only [waitForRateLimit, if_pos h, hclk]
  · intro h
    simp only [waitForRateLimit, if_neg h]
  · intro oracle message hlen
    have h2 : ¬ MAX_MESSAGE_SIZE < message.length := by omega
    rcases hw : waitForRateLimit st now with ⟨wEvs, st1, now1⟩
    cases h0 : oracle 0 <;> simp [send, if_neg h2, hw, h0, sendMessage]

/-- Concrete instance of C6 at a saturated window. -/
theorem waitForRateLimit_window_witness :
    waitForRateLimit ⟨0, 20⟩ 30000 =
      ([SendEv.rateWait (60000 - (30000 - 0))], ⟨0, 0⟩, 0 + 60000) :=
  (waitForRateLimit_window ⟨0, 20⟩ 30000 (by decide)).1 (by decide)

/-- Keys of the registries: JavaScript string values, with `none` standing
for `undefined` (the conversation-id fallback chain can yield it). -/
abbrev Key := Option String

/-- JavaScript truthiness of a possibly-undefined string. -/
def truthyS : Key → Bool
  | none => false
  | some s => decide (s ≠ "")

/-- JavaScript truthiness of a possibly-undefined number. -/
def truthyN : Option Nat → Bool
  | none => false
  | some n => decide (n ≠ 0)

/-- JavaScript `a || b` on possibly-undefined strings. -/
def jsOrS (a b : Key) : Key :=
  if truthyS a then a else b

/-- JavaScript string interpolation of a possibly-undefined string. -/
def jsShow : Key → String
  | none => "undefined"
  | some s => s

/-- The `text` field of an inbound DingTalk payload: a string, an object
(with a possibly missing `content`), or anything else/absent. -/
inductive TextField where
  | str (s : String)
  | obj (content : Option String)
  | undef

/-- Content extraction (src/index.mjs:319-324): a string is taken as is,
an object contributes `text.content || ""`, anything else leaves the
content empty. -/
def extractContent : TextField → String
  | .str s => s
  | .obj c => (c.getD (""))
  | .undef => ""

/-- The fields destructured from `JSON.parse(res.data)`
(src/index.mjs:311). -/
structure DTData where
  text : TextField
  senderStaffId : Key
  sessionWebhook : Key
  sessionWebhookExpiredTime : Option Nat
  conversationId : Key
  msgId : Key

/-- One inbound stream event: the header `messageId` and the parse result
of `res.data` (`none` models a `JSON.parse` throw). -/
structure InboundEvent where
  messageId : Key
  data : Option DTData

/-- One part of an OpenCode prompt response. -/
structure Part where
  type : String
  text : String

/-- External collaborators of one orchestration: session creation
(`session.data?.id`, possibly undefined), prompting (`result.data?.parts`,
possibly undefined) and the per-chunk delivery outcome; `Except.error`
models a thrown/rejected call. -/
structure Backend where
  create : String → Except Unit Key
  promptFn : Key → String → Except Unit (Option (List Part))
  deliver : Nat → Bool

/-- Reply extraction (src/index.mjs:363-366):
`result.data?.parts?.filter(p => p.type === "text").map(p => p.text)
  .join("\n") || fallback`. -/
def extractReply (parts : Option (List Part)) : String :=
  let joined := String.intercalate ("\n")
    (((parts.getD []).filter (fun p => p.type = "text")).map (fun p => p.text))
  if joined = "" then "没有收到回复" else joined

/-- The global mutable state of the relay: the three registries and the
dispatcher state. -/
structure World where
  processedMessages : LRUCache Key Nat
  sessions : LRUCache Key String
  webhooks : LRUCache Key WebhookEntry
  mq : MQState

/-- Observable effects of one orchestration run. -/
inductive Effect where
  | markProcessed (k : Key)
  | webhookStored (k : Key) (url : String) (expiredTime : Nat)
  | sessionCreate (title : String)
  | promptCall (sessionId : Key) (text : String)
  | mqEv (e : SendEv)
  | recordMessage
  | recordError
deriving DecidableEq

/-- How one orchestration run ended: an early `return`, normal
completion, or a thrown exception (caught by the surrounding catch). -/
inductive Outcome where
  | ret | done | threw
deriving DecidableEq

/-- The reply-delivery tail of `handleDingTalkMessage`
(src/index.mjs:355-382): prompt OpenCode, extract the reply, resolve the
webhook and, when one is bound, deliver via the dispatcher; success is
recorded in the metrics, any rejection propagates to the catch. -/
def afterSession (be : Backend) (w : World) (tr : List Effect) (now : Nat)
    (cid : Key) (content : String) (sessionId : Key) :
    World × List Effect × Outcome :=
  match be.promptFn sessionId content with
  | .error _ => (w, tr ++ [Effect.promptCall sessionId content], Outcome.threw)
  | .ok parts =>
    let reply := extractReply parts
    let tr2 := tr ++ [Effect.promptCall sessionId content]
    match getWebhook w.webhooks cid now with
    | (whOpt, webhooks1) =>
      let w4 := { w with webhooks := webhooks1 }
      match whOpt with
      | some _url =>
        match send be.deliver w4.mq now reply.data with
        | (evs, mq1, ok) =>
          let w5 := { w4 with mq := mq1 }
          let tr3 := tr2 ++ evs.map Effect.mqEv
          if ok then (w5, tr3 ++ [Effect.recordMessage], Outcome.done)
          else (w5, tr3, Outcome.threw)
      | none => (w4, tr2 ++ [Effect.recordMessage], Outcome.done)

/-- The session-resolution step of `handleDingTalkMessage`
(src/index.mjs:340-353): look the conversation up in the session cache,
create an OpenCode session when none is bound (storing the new id only
when truthy), then hand over to the delivery tail. -/
def resolveAndReply (be : Backend) (w : World) (tr : List Effect) (now : Nat)
    (cid : Key) (content : String) : World × List Effect × Outcome :=
  match w.sessions.get cid now with
  | (sidOpt, sessions1) =>
    let w2 := { w with sessions := sessions1 }
    if truthyS sidOpt then afterSession be w2 tr now cid content sidOpt
    else
      let title := "钉钉会话-" ++ jsShow cid
      match be.create title with
      | .error _ => (w2, tr ++ [Effect.sessionCreate title], Outcome.threw)
      | .ok sidNew =>
        let w3 :=
          if truthyS sidNew then
            { w2 with sessions := w2.sessions.set cid (jsShow sidNew) now }
          else w2
        afterSession be w3 (tr ++ [Effect.sessionCreate title]) now
          cid content sidNew

/-- The body of `handleDingTalkMessage` after the dedup mark
(src/index.mjs:319-337): extract content, store the session webhook when
both webhook fields are truthy, stop on empty content, else resolve the
session and reply. -/
def processAfterMark (be : Backend) (w : World) (now : Nat)
    (messageId : Key) (d : DTData) : World × List Effect × Outcome :=
  let content := extractContent d.text
  let finalCid := jsOrS d.conversationId
    (jsOrS d.sessionWebhook (jsOrS d.senderStaffId messageId))
  let stored :=
    if truthyS d.sessionWebhook && truthyN d.sessionWebhookExpiredTime then
      ({ w with webhooks := (setWebhook w.webhooks finalCid
          (jsShow d.sessionWebhook) (d.sessionWebhookExpiredTime.getD 0) now) },
       [Effect.webhookStored finalCid (jsShow d.sessionWebhook)
          (d.sessionWebhookExpiredTime.getD 0)])
    else (w, ([] : List Effect))
  if content = "" then (stored.1, stored.2, Outcome.ret)
  else resolveAndReply be stored.1 stored.2 now finalCid content

/-- The world after the dedup mark of a message id. -/
def markWorld (w : World) (k : Key) (now : Nat) : World :=
  { w with processedMessages := markMessageProcessed w.processedMessages k now }

/-- The body of the `try` block of `handleDingTalkMessage`
(src/index.mjs:308-383): parse, drop duplicates, mark the message
processed, then process it. -/
def handleBody (be : Backend) (w : World) (now : Nat) (ev : InboundEvent) :
    World × List Effect × Outcome :=
  match ev.data with
  | none => (w, [], Outcome.threw)
  | some d =>
    if isMessageProcessed w.processedMessages d.msgId now then
      (w, [], Outcome.ret)
    else
      match processAfterMark be (markWorld w d.msgId now) now ev.messageId d with
      | (w2, tr, o) => (w2, Effect.markProcessed d.msgId :: tr, o)

/-- `handleDingTalkMessage` (src/index.mjs:304-388): the whole body runs
inside `try { ... } catch { recordError }`, so the function always
returns normally; a thrown body is recorded in the error metric. -/
def handleDingTalkMessage (be : Backend) (w : World) (now : Nat)
    (ev : InboundEvent) : Except Unit (World × List Effect) :=
  match handleBody be w now ev with
  | (w2, tr, Outcome.threw) => Except.ok (w2, tr ++ [Effect.recordError])
  | (w2, tr, _) => Except.ok (w2, tr)

/-- The delivery tail never touches the dedup registry. -/
lemma afterSession_processed (be : Backend) (w : World) (tr : List Effect)
    (now : Nat) (cid : Key) (content : String) (sid : Key) :
    (afterSession be w tr now cid content sid).1.processedMessages =
      w.processedMessages := by
  cases hp : be.promptFn sid content with
  | error e => simp [afterSession, hp]
  | ok parts =>
    rcases hw : getWebhook w.webhooks cid now with ⟨whOpt, whs1⟩
    cases whOpt with
    | none => simp [afterSession, hp, hw]
    | some u =>
      rcases hs : send be.deliver w.mq now (extractReply parts).data with
        ⟨evs, mq1, ok⟩
      cases ok <;> simp [afterSession, hp, hw, hs]

/-- Session resolution never touches the dedup registry. -/
lemma resolveAndReply_processed (be : Backend) (w : World) (tr : List Effect)
    (now : Nat) (cid : Key) (content : String) :
    (resolveAndReply be w tr now cid content).1.processedMessages =
      w.processedMessages := by
  rcases hg : w.sessions.get cid now with ⟨sidOpt, s1⟩
  by_cases ht : truthyS sidOpt = true
  · simp [resolveAndReply, hg, ht, afterSession_processed]
  · cases hc : be.create ("钉钉会话-" ++ jsShow cid) with
    | error e => simp [resolveAndReply, hg, hc, ht]
    | ok sidNew =>
      by_cases hn : truthyS sidNew = true <;>
        simp [resolveAndReply, hg, hc, ht, hn, afterSession_processed]

/-- The post-mark processing never touches the dedup registry. -/
lemma processAfterMark_processed (be : Backend) (w : World) (now : Nat)
    (mid : Key) (d : DTData) :
    (processAfterMark be w now mid d).1.processedMessages =
      w.processedMessages := by
  by_cases h1 : (truthyS d.sessionWebhook && truthyN d.sessionWebhookExpiredTime) = true <;>
    by_cases h2 : extractContent d.text = "" <;>
      simp [processAfterMark, h1, h2, resolveAndReply_processed]

/-- `handleDingTalkMessage` in terms of its body: it always returns
normally, appending a `recordError` effect exactly when the body threw. -/
lemma handle_eq (be : Backend) (w : World) (now : Nat) (ev : InboundEvent) :
    handleDingTalkMessage be w now ev =
      Except.ok ((handleBody be w now ev).1,
        (handleBody be w now ev).2.1 ++
          (if (handleBody be w now ev).2.2 = Outcome.threw
            then [Effect.recordError] else [])) := by
  unfold handleDingTalkMessage
  rcases hb : handleBody be w now ev with ⟨w2, tr, o⟩
  cases o <;> simp [hb]

/-- Predicate for the effects C7 forbids: backend session creation,
backend prompting, and dispatcher events. -/
def isBackendOrDelivery : Effect → Bool
  | Effect.sessionCreate _ => true
  | Effect.promptCall _ _ => true
  | Effect.mqEv _ => true
  | _ => false

/-- On a non-duplicate parsed event, the body marks the id first and then
runs the post-mark processing. -/
lemma handleBody_not_dup (be : Backend) (w : World) (now : Nat)
    (ev : InboundEvent) (d : DTData) (hd : ev.data = some d)
    (hdup : isMessageProcessed w.processedMessages d.msgId now = false) :
    handleBody be w now ev =
      ((processAfterMark be (markWorld w d.msgId now) now ev.messageId d).1,
       Effect.markProcessed d.msgId ::
         (processAfterMark be (markWorld w d.msgId now) now ev.messageId d).2.1,
       (processAfterMark be (markWorld w d.msgId now) now ev.messageId d).2.2) := by
  rw [handleBody]
  rcases hpam : processAfterMark be (markWorld w d.msgId now) now ev.messageId d
    with ⟨w2, tr, o⟩
  simp [hd, hdup, hpam]

/-- With empty extracted content the post-mark processing returns early:
no backend or delivery effect, session registry and dispatcher state
untouched. -/
lemma processAfterMark_empty (be : Backend) (w : World) (now : Nat)
    (mid : Key) (d : DTData) (hc : extractContent d.text = "") :
    (processAfterMark be w now mid d).2.2 = Outcome.ret ∧
    (processAfterMark be w now mid d).1.sessions = w.sessions ∧
    (processAfterMark be w now mid d).1.mq = w.mq ∧
    (∀ e ∈ (processAfterMark be w now mid d).2.1, isBackendOrDelivery e = false) := by
  by_cases h1 : (truthyS d.sessionWebhook && truthyN d.sessionWebhookExpiredTime) = true <;>
    simp [processAfterMark, h1, hc, isBackendOrDelivery]

/-- C7: a non-duplicate inbound message whose extracted content is empty
ends the orchestration with no backend call and no delivery: the run
returns normally, every emitted effect is the dedup mark or the webhook
store, and the session registry and dispatcher state are untouched. -/
theorem empty_content_short_circuit (be : Backend) (w : World) (now : Nat)
    (ev : InboundEvent) (d : DTData) (hd : ev.data = some d)
    (hdup : isMessageProcessed w.processedMessages d.msgId now = false)
    (hc : extractContent d.text = "") :
    ∃ w2 tr, handleDingTalkMessage be w now ev = Except.ok (w2, tr) ∧
      (∀ e ∈ tr, isBackendOrDelivery e = false) ∧
      w2.sessions = w.sessions ∧ w2.mq = w.mq := by
  rcases hpam : processAfterMark be (markWorld w d.msgId now) now ev.messageId d
    with ⟨w2, tr, o⟩
  have hb : handleBody be w now ev = (w2, Effect.markProcessed d.msgId :: tr, o) := by
    rw [handleBody_not_dup be w now ev d hd hdup, hpam]
  have hp := processAfterMark_empty be (markWorld w d.msgId now) now ev.messageId d hc
  rw [hpam] at hp
  refine ⟨w2, Effect.markProcessed d.msgId :: tr, ?_, ?_, ?_, ?_⟩
  · have ho : o = Outcome.ret := hp.1
    subst ho
    rw [handle_eq, hb]
    simp
  · intro e he
    rcases List.mem_cons.1 he with h | h
    · subst h
      rfl
    · exact hp.2.2.2 e h
  · rw [hp.2.1]
    rfl
  · rw [hp.2.2.1]
    rfl

/-- Concrete instance of C7: an inbound message with string text `""`. -/
theorem empty_content_short_circuit_witness :
    let w : World := ⟨⟨1000, some PROCESSED_MESSAGES_TTL, true, []⟩,
      ⟨100, some 1800000, true, []⟩, ⟨100, some WEBHOOKS_TTL, false, []⟩, ⟨0, 0⟩⟩
    let be : Backend := ⟨fun _ => Except.error (), fun _ _ => Except.error (),
      fun _ => true⟩
    let d : DTData := ⟨TextField.str "", none, none, none, some ("c1"), some ("m1")⟩
    ∃ w2 tr, handleDingTalkMessage be w 0 ⟨none, some d⟩ = Except.ok (w2, tr) ∧
      (∀ e ∈ tr, isBackendOrDelivery e = false) ∧
      w2.sessions = w.sessions ∧ w2.mq = w.mq :=
  empty_content_short_circuit _ _ 0 _ _ rfl rfl rfl

/-- C8: `handleDingTalkMessage` never propagates an exception: it always
returns normally, and whenever its try-block body threw at some state and
trace, the returned value is that state with exactly one `recordError`
effect appended. -/
theorem handle_never_propagates (be : Backend) (w : World) (now : Nat)
    (ev : InboundEvent) :
    (∃ w2 tr, handleDingTalkMessage be w now ev = Except.ok (w2, tr)) ∧
    (∀ w0 t0, handleBody be w now ev = (w0, t0, Outcome.threw) →
      handleDingTalkMessage be w now ev =
        Except.ok (w0, t0 ++ [Effect.recordError])) := by
  constructor
  · exact ⟨_, _, handle_eq be w now ev⟩
  · intro w0 t0 hb
    rw [handle_eq be w now ev, hb]
    simp

/-- Concrete instance of C8: a malformed event (JSON parse failure) is
caught and recorded. -/
theorem handle_never_propagates_witness :
    let w : World := ⟨⟨1000, some PROCESSED_MESSAGES_TTL, true, []⟩,
      ⟨100, some 1800000, true, []⟩, ⟨100, some WEBHOOKS_TTL, false, []⟩, ⟨0, 0⟩⟩
    let be : Backend := ⟨fun _ => Except.error (), fun _ _ => Except.error (),
      fun _ => true⟩
    handleDingTalkMessage be w 0 ⟨none, none⟩ =
      Except.ok (w, [] ++ [Effect.recordError]) :=
  (handle_never_propagates _ _ 0 ⟨none, none⟩).2 _ [] rfl

/-- The initial world: the caches as constructed at module load
(src/index.mjs:159-190) and a fresh dispatcher. -/
def initWorld : World :=
  ⟨⟨1000, some PROCESSED_MESSAGES_TTL, true, []⟩,
   ⟨100, some 1800000, true, []⟩,
   ⟨100, some WEBHOOKS_TTL, false, []⟩,
   ⟨0, 0⟩⟩

/-- A backend whose calls all reject. -/
def failingBackend : Backend :=
  ⟨fun _ => Except.error (), fun _ _ => Except.error (), fun _ => true⟩

/-- An inbound message with text `"hello"` and message id `"m1"`. -/
def helloData : DTData :=
  ⟨TextField.str "hello", none, none, none, some ("c1"), some ("m1")⟩

/-- C10: the dedup mark is taken before any processing and survives
failure: a non-duplicate parsed message is marked as the first effect of
its run, whatever happens afterwards (including a thrown backend call or
delivery), and a redelivery of the same message id within the dedup TTL
is discarded — the second run returns the world unchanged with an empty
effect trace, so no backend call and no delivery occur. -/
theorem mark_before_processing_survives_failure (be be2 : Backend)
    (w : World) (now t2 : Nat) (ev ev2 : InboundEvent) (d d2 : DTData)
    (hd : ev.data = some d) (hd2 : ev2.data = some d2)
    (hmid : d2.msgId = d.msgId)
    (hdup : isMessageProcessed w.processedMessages d.msgId now = false)
    (httl : w.processedMessages.ttl = some PROCESSED_MESSAGES_TTL)
    (h1 : now ≤ t2) (h2 : t2 ≤ now + PROCESSED_MESSAGES_TTL) :
    ∃ w2 tr, handleDingTalkMessage be w now ev = Except.ok (w2, tr) ∧
      (∃ rest, tr = Effect.markProcessed d.msgId :: rest) ∧
      handleDingTalkMessage be2 w2 t2 ev2 = Except.ok (w2, []) := by
  rcases hpam : processAfterMark be (markWorld w d.msgId now) now ev.messageId d
    with ⟨w2, tr, o⟩
  have hb : handleBody be w now ev = (w2, Effect.markProcessed d.msgId :: tr, o) := by
    rw [handleBody_not_dup be w now ev d hd hdup, hpam]
  have hpm : w2.processedMessages =
      markMessageProcessed w.processedMessages d.msgId now := by
    have hq := processAfterMark_processed be (markWorld w d.msgId now) now ev.messageId d
    rw [hpam] at hq
    exact hq
  have hhas : isMessageProcessed w2.processedMessages d2.msgId t2 = true := by
    rw [hmid, hpm]
    simp only [isMessageProcessed, markMessageProcessed]
    rw [LRUCache.has_set_self, httl]
    simp only [entryFresh, decide_eq_true_eq]
    omega
  have hb2 : handleBody be2 w2 t2 ev2 = (w2, [], Outcome.ret) := by
    rw [handleBody]
    simp [hd2, hhas]
  refine ⟨w2, Effect.markProcessed d.msgId ::
      (tr ++ (if o = Outcome.threw then [Effect.recordError] else [])),
    ?_, ⟨_, rfl⟩, ?_⟩
  · rw [handle_eq, hb]
    simp
  · rw [handle_eq be2 w2 t2 ev2, hb2]
    simp

/-- Concrete instance of C10: a run whose backend session creation throws,
followed by a redelivery of the same message id 100 ms later. -/
theorem mark_before_processing_survives_failure_witness :
    ∃ w2 tr, handleDingTalkMessage failingBackend initWorld 0
        ⟨none, some helloData⟩ = Except.ok (w2, tr) ∧
      (∃ rest, tr = Effect.markProcessed (some ("m1")) :: rest) ∧
      handleDingTalkMessage failingBackend w2 100 ⟨none, some helloData⟩ =
        Except.ok (w2, []) :=
  mark_before_processing_survives_failure failingBackend failingBackend
    initWorld 0 100 ⟨none, some helloData⟩ ⟨none, some helloData⟩
    helloData helloData rfl rfl rfl (by decide) rfl (by decide) (by decide)

/-- The counters of `PerformanceMetrics` (src/index.mjs:53-60); the
process-level readings (uptime, memory) are environment queries with no
bearing on the registries and are not modelled. -/
structure Metrics where
  messageCount : Nat
  errorCount : Nat
  queueSize : Nat
  processTimes : List Nat

/-- The derived fields of `PerformanceMetrics.getStats`
(src/index.mjs:79-107). -/
structure PerfStats where
  totalMessages : Nat
  avgProcessTime : Nat
  errorCount : Nat
  queueSize : Nat
deriving DecidableEq

/-- `metrics.getStats()` (src/index.mjs:79-107): pure reads. -/
def Metrics.getStats (m : Metrics) : PerfStats :=
  ⟨m.messageCount,
   if m.processTimes.length = 0 then 0
   else m.processTimes.sum / m.processTimes.length,
   m.errorCount, m.queueSize⟩

/-- The non-stale entries of a cache in most-recently-used order, as the
lru-cache iterators yield them (iteration skips stale entries and does
not mutate). -/
def LRUCache.liveEntries (c : LRUCache K V) (now : Nat) : List (K × V × Nat) :=
  c.entries.filter (fun e => entryFresh c.ttl e.2.2 now)

/-- `SessionWebhookManager.getStats` (src/index.mjs:209-214): the cache
size and the count of stored webhooks whose semantic expiry has not
passed. -/
def webhookManagerStats (whs : LRUCache Key WebhookEntry) (now : Nat) :
    Nat × Nat :=
  (whs.entries.length,
   ((whs.liveEntries now).filter (fun e => decide (now ≤ e.2.1.expiredTime))).length)

/-- The payload assembled by the `dingtalk_get_stats` tool
(src/index.mjs:480-500). -/
structure StatsResult where
  sessionsTotal : Nat
  sessionIds : List Key
  processedCount : Nat
  queueStats : MQState
  webhooksTotal : Nat
  webhooksActive : Nat
  performance : PerfStats

/-- `dingtalk_get_stats` (src/index.mjs:480-500): pure reads of the
registries and metrics; returns the structured payload and leaves the
world untouched. -/
def dingtalk_get_stats (m : Metrics) (w : World) (now : Nat) :
    StatsResult × World :=
  (⟨w.sessions.entries.length,
    (w.sessions.liveEntries now).map (fun e => e.1),
    w.processedMessages.entries.length,
    w.mq,
    (webhookManagerStats w.webhooks now).1,
    (webhookManagerStats w.webhooks now).2,
    m.getStats⟩, w)

/-- One row of the `dingtalk_list_conversations` output
(src/index.mjs:502-507). -/
structure ConvInfo where
  conversationId : Key
  sessionId : String
  hasWebhook : Bool
deriving DecidableEq

/-- The `map` over the session entries inside `dingtalk_list_conversations`
(src/index.mjs:503-507): each row calls `webhookManager.getWebhook(id)`,
threading its mutations of the webhook registry. -/
def listConvLoop (now : Nat) (whs : LRUCache Key WebhookEntry) :
    List (Key × String × Nat) → List ConvInfo × LRUCache Key WebhookEntry
  | [] => ([], whs)
  | e :: rest =>
    match getWebhook whs e.1 now with
    | (r, whs1) =>
      match listConvLoop now whs1 rest with
      | (l, whs2) => (⟨e.1, e.2.1, r.isSome⟩ :: l, whs2)

/-- `dingtalk_list_conversations` (src/index.mjs:502-517). -/
def dingtalk_list_conversations (w : World) (now : Nat) :
    List ConvInfo × World :=
  match listConvLoop now w.webhooks (w.sessions.liveEntries now) with
  | (l, whs1) => (l, { w with webhooks := whs1 })

/-- `dingtalk_get_performance` (src/index.mjs:519-527): reads only the
metrics. -/
def dingtalk_get_performance (m : Metrics) (w : World) : PerfStats × World :=
  (m.getStats, w)

/-- C9 fails on the code: `dingtalk_list_conversations` mutates the
webhook registry.  With one live session for `"c1"` and a cache-fresh
webhook binding for `"c1"` whose semantic expiry has passed, listing the
conversations deletes that binding. -/
theorem list_conversations_mutates_webhooks_cex :
    (dingtalk_list_conversations
      ⟨⟨1000, some PROCESSED_MESSAGES_TTL, true, []⟩,
       ⟨100, some 1800000, true, [(some ("c1"), "s1", 0)]⟩,
       ⟨100, some WEBHOOKS_TTL, false, [(some ("c1"), ⟨"https://cb/x", 1⟩, 0)]⟩,
       ⟨0, 0⟩⟩ 5).2.webhooks.entries = [] ∧
    ((⟨100, some WEBHOOKS_TTL, false,
        [(some ("c1"), ⟨"https://cb/x", 1⟩, 0)]⟩ : LRUCache Key WebhookEntry).entries
      ≠ []) := by
  constructor
  · rfl
  · decide

/-- C9 corrected: `dingtalk_get_stats` and `dingtalk_get_performance`
leave the whole world (all registries and the dispatcher state)
unchanged; `dingtalk_list_conversations` leaves the session registry, the
dedup registry and the dispatcher state unchanged, but may mutate the
webhook registry through its per-conversation `getWebhook` calls; each
operation totalises to a structured result. -/
theorem control_surface_frame (m : Metrics) (w : World) (now : Nat) :
    (dingtalk_get_stats m w now).2 = w ∧
    (dingtalk_get_performance m w).2 = w ∧
    (dingtalk_list_conversations w now).2.sessions = w.sessions ∧
    (dingtalk_list_conversations w now).2.processedMessages = w.processedMessages ∧
    (dingtalk_list_conversations w now).2.mq = w.mq := by
  refine ⟨rfl, rfl, ?_, ?_, ?_⟩ <;>
    · unfold dingtalk_list_conversations
      rcases listConvLoop now w.webhooks (w.sessions.liveEntries now) with ⟨l, whs1⟩
      rfl

end Relay
